import Mathlib

/-!
# Verification of the fujisan (ABDS) frontend workflow

A shallow embedding, in Lean 4, of the TypeScript functions of the fujisan
repository that the specification's claims talk about:

* `frontend/src/services/imageService.ts` — upload validation and upload flow
* `src/utils/helpers.ts` — the `chunk` array helper
* the settings service — `validateThresholds`, `maskAPIKey`, default settings
* the search service — `searchImages` and its mock fallback generator
* the analysis service — `getAnalysisDetail`, `getSearchResultDetails` and
  the mock analysis generator
* the `WhitelistManager` data model
* the `ImageUploader` component's per-file status state machine

JavaScript `number` values that only ever participate in order comparisons or
are carried as data are modelled as `ℚ`; byte counts and indices as `ℕ`.
`Math.random()` draws are modelled as explicit inputs: each call site gets a
named field of a draw record whose support matches the call site
(`Math.floor(Math.random() * n)` becomes a `ℕ` used modulo `n`,
`Math.random() < p` becomes a `Bool`, a raw `Math.random()` becomes a `ℚ`).
`Date`-derived strings (timestamps) are omitted: they carry real time, which
the embedding does not model, and no claim mentions them.
-/

/-- Threat level labels, from the `SearchResult` interface in
`ResultCard.tsx` (`'SAFE' | 'LOW' | 'MEDIUM' | 'HIGH' | 'UNKNOWN'`). -/
inductive ThreatLevel where
  | SAFE
  | LOW
  | MEDIUM
  | HIGH
  | UNKNOWN
deriving DecidableEq, Repr

/-- Result status labels, from the `SearchResult` interface in
`ResultCard.tsx` (`'ACTIVE' | 'REMOVED' | 'INVESTIGATING'`). -/
inductive ResultStatus where
  | ACTIVE
  | REMOVED
  | INVESTIGATING
deriving DecidableEq, Repr

/-! ## imageService.ts -/

/-- The parts of a browser `File` object that `imageService.ts` reads:
`name`, `size` (bytes) and `type` (MIME type). -/
structure JsFile where
  name : String
  size : Nat
  type : String
deriving DecidableEq, Repr

/-- `UPLOAD_CONFIG` from `imageService.ts`. -/
structure UploadConfig where
  maxFileSize : Nat
  allowedTypes : List String
  maxFiles : Nat
deriving Repr

/-- `UPLOAD_CONFIG = ⟨10MB, jpeg/png/gif/webp, 10⟩` from `imageService.ts`. -/
def UPLOAD_CONFIG : UploadConfig :=
  { maxFileSize := 10 * 1024 * 1024
    allowedTypes := ["image/jpeg", "image/png", "image/gif", "image/webp"]
    maxFiles := 10 }

/-- The too-large message of `validateImageFile` (the source interpolates
`maxFileSize / 1024 / 1024 = 10`). -/
def fileTooLargeMessage : String :=
  "ファイルサイズが大きすぎます。最大10MBまでです。"

/-- The unsupported-type message of `validateImageFile`. -/
def invalidTypeMessage : String :=
  "対応していないファイル形式です。JPEG、PNG、GIF、WebPのみサポートしています。"

/-- `validateImageFile` from `imageService.ts`: size check first, then MIME
type check; `none` means the file is accepted. -/
def validateImageFile (file : JsFile) : Option String :=
  if UPLOAD_CONFIG.maxFileSize < file.size then
    some fileTooLargeMessage
  else if ¬ (UPLOAD_CONFIG.allowedTypes.contains file.type) then
    some invalidTypeMessage
  else
    none

/-- Upload record status from the `ImageUploadResponse` interface. -/
inductive UploadRespStatus where
  | pending
  | processing
  | completed
  | failed
deriving DecidableEq, Repr

/-- `ImageUploadResponse` from `imageService.ts` (the `createdAt` timestamp is
omitted — real time is not modelled). -/
structure ImageUploadResponse where
  id : String
  filename : String
  originalName : String
  size : Nat
  mimeType : String
  uploadPath : String
  thumbnailPath : Option String
  status : UploadRespStatus
deriving DecidableEq, Repr

/-- The possible outcomes of the axios POST inside `uploadImage`, following
the source's three-way error handling (`error.response`, `error.request`,
other). -/
inductive NetOutcome where
  | success (resp : ImageUploadResponse)
  | serverError (message : Option String)
  | networkError
  | otherError (message : String)
deriving DecidableEq, Repr

/-- `uploadImage` from `imageService.ts`, with the network modelled as an
explicit `NetOutcome` input.  The first component records the HTTP requests
the function issues, in order; the second is the returned value or the thrown
error message.  The source validates first and throws before building any
request when validation fails. -/
def uploadImage (file : JsFile) (net : NetOutcome) :
    List String × Except String ImageUploadResponse :=
  match validateImageFile file with
  | some validationError => ([], .error validationError)
  | none =>
    let requests := ["POST /api/v1/images/upload"]
    match net with
    | .success resp => (requests, .ok resp)
    | .serverError msg => (requests, .error (msg.getD "アップロードに失敗しました"))
    | .networkError => (requests, .error "ネットワークエラーが発生しました")
    | .otherError m =>
        (requests, .error (if m = "" then "不明なエラーが発生しました" else m))

/-! ## helpers.ts: chunk -/

/-- The loop body of `chunk` from `helpers.ts`: each iteration pushes
`array.slice(i, i + size)` (= `take size` of the remaining list) and advances
by `size`.  `fuel` bounds the number of iterations; `chunk` passes
`array.length`, which dominates the source loop's iteration count whenever
`size ≥ 1`, so the fuel never runs out (`chunkGo_fuel_irrelevant` below). -/
def chunkGo {α : Type} (size : Nat) : Nat → List α → List (List α)
  | 0, _ => []
  | _ + 1, [] => []
  | fuel + 1, a@(_ :: _) => a.take size :: chunkGo size fuel (a.drop size)

/-- `chunk` from `helpers.ts`.  For `size = 0` the source loop would not
terminate; the embedding returns `[]` there and every theorem assumes
`1 ≤ size`, the range the claim quantifies over. -/
def chunk {α : Type} (array : List α) (size : Nat) : List (List α) :=
  if size = 0 then [] else chunkGo size array.length array

/-! ## Settings service (`ThresholdSettings`, `validateThresholds`,
`maskAPIKey`) -/

/-- `ThresholdSettings.threatScore` from the settings service. -/
structure ThreatScoreThresholds where
  safe : ℚ
  low : ℚ
  medium : ℚ
  high : ℚ
deriving DecidableEq, Repr

/-- `ThresholdSettings.similarityScore`. -/
structure SimilarityThresholds where
  minimum : ℚ
  high : ℚ
deriving DecidableEq, Repr

/-- `ThresholdSettings.confidenceScore`. -/
structure ConfidenceThresholds where
  minimum : ℚ
  reliable : ℚ
deriving DecidableEq, Repr

/-- `ThresholdSettings.domainTrust`. -/
structure DomainTrustThresholds where
  minimum : ℚ
  trusted : ℚ
deriving DecidableEq, Repr

/-- `ThresholdSettings.aiAnalysis`. -/
structure AiAnalysisThresholds where
  contentAbuse : ℚ
  copyrightInfringement : ℚ
  commercialUseThreshold : ℚ
deriving DecidableEq, Repr

/-- `ThresholdSettings` from the settings service. -/
structure ThresholdSettings where
  threatScore : ThreatScoreThresholds
  similarityScore : SimilarityThresholds
  confidenceScore : ConfidenceThresholds
  domainTrust : DomainTrustThresholds
  aiAnalysis : AiAnalysisThresholds
deriving DecidableEq, Repr

/-- Ordering error message: safe must be below low. -/
def orderErrSafeLow : String := "安全スコアは低リスクスコアより小さい必要があります"

/-- Ordering error message: low must be below medium. -/
def orderErrLowMedium : String := "低リスクスコアは中リスクスコアより小さい必要があります"

/-- Ordering error message: medium must be below high. -/
def orderErrMediumHigh : String := "中リスクスコアは高リスクスコアより小さい必要があります"

/-- Range error message: all checked scores must be within 0-100. -/
def rangeErr : String := "すべてのスコアは0-100の範囲内である必要があります"

/-- The `allScores` list that `validateThresholds` range-checks.  Note the
source lists exactly these ten values; the three `aiAnalysis` thresholds are
NOT among them. -/
def checkedScores (t : ThresholdSettings) : List ℚ :=
  [t.threatScore.safe, t.threatScore.low, t.threatScore.medium, t.threatScore.high,
   t.similarityScore.minimum, t.similarityScore.high,
   t.confidenceScore.minimum, t.confidenceScore.reliable,
   t.domainTrust.minimum, t.domainTrust.trusted]

/-- `validateThresholds` from the settings service: three ordering checks on
the threat-score boundaries (each pushing one error), then a single range
check over `checkedScores`.  The `errors.push` sequence is rendered as list
concatenation in push order. -/
def validateThresholds (t : ThresholdSettings) : List String :=
  (if t.threatScore.safe ≥ t.threatScore.low then [orderErrSafeLow] else []) ++
  (if t.threatScore.low ≥ t.threatScore.medium then [orderErrLowMedium] else []) ++
  (if t.threatScore.medium ≥ t.threatScore.high then [orderErrMediumHigh] else []) ++
  (if (checkedScores t).any (fun s => decide (s < 0) || decide (100 < s)) then
    [rangeErr] else [])

/-- The `thresholds` part of `defaultSettings` from the settings service. -/
def defaultThresholds : ThresholdSettings :=
  { threatScore := ⟨20, 40, 70, 85⟩
    similarityScore := ⟨60, 85⟩
    confidenceScore := ⟨50, 80⟩
    domainTrust := ⟨30, 80⟩
    aiAnalysis := ⟨70, 75, 80⟩ }

/-- The mask character `'●'` used by `maskAPIKey`. -/
def maskChar : Char := '●'

/-- `maskAPIKey` from the settings service, on the string's character list.
`!key` (falsy) is the empty string; `key.slice(0, 4)` is `take 4`;
`key.slice(-4)` is the last four characters, i.e. `drop (length - 4)`. -/
def maskAPIKey (key : List Char) : List Char :=
  if key = [] then []
  else if key.length ≤ 8 then List.replicate key.length maskChar
  else key.take 4 ++ List.replicate (key.length - 8) maskChar ++ key.drop (key.length - 4)

/-! ## Search service (part of `searchService`): `searchImages`,
`getSearchResultDetails` and `generateMockSearchResults` -/

/-- `FilterConfig` from `FilterPanel.tsx`.  The source types `threatLevels`
and `status` as `string[]`; they hold the level/status labels and are
compared against generated levels/statuses with `includes`, so they are
modelled with the label enums directly. -/
structure FilterConfig where
  threatLevels : List ThreatLevel
  domains : List String
  startDate : Option String
  endDate : Option String
  similarityMin : ℚ
  similarityMax : ℚ
  status : List ResultStatus
  isOfficial : Option Bool
  hasRiskFactors : Option Bool
  sortBy : String
  sortOrder : String
deriving DecidableEq, Repr

/-- `SearchParams` from the search service. -/
structure SearchParams where
  imageId : Option String
  query : Option String
  filters : FilterConfig
  page : Nat
  limit : Nat
deriving DecidableEq, Repr

/-- The optional `aiAnalysis` block of a `SearchResult` (`ResultCard.tsx`). -/
structure ResultAiAnalysis where
  contentAbuse : ℚ
  copyrightRisk : ℚ
  commercialUse : Bool
  unauthorizedRepost : Bool
deriving DecidableEq, Repr

/-- `SearchResult` from `ResultCard.tsx`.  The `detectedAt` / `lastChecked`
timestamps and the `metadata` block (timestamps, share counts) are omitted:
they are `Date.now()`-derived and no claim mentions them. -/
structure SearchResult where
  id : String
  imageId : String
  foundUrl : String
  domain : String
  title : Option String
  description : Option String
  thumbnailUrl : Option String
  similarityScore : ℚ
  threatLevel : ThreatLevel
  threatScore : ℚ
  isOfficial : Bool
  status : ResultStatus
  riskFactors : List String
  aiAnalysis : Option ResultAiAnalysis
deriving DecidableEq, Repr

/-- `SearchResultsResponse` from the search service.  The `facets` block
(random per-domain/level/status counts, a UI aggregate) is omitted: no claim
mentions it. -/
structure SearchResultsResponse where
  results : List SearchResult
  total : Nat
  page : Nat
  limit : Nat
  hasMore : Bool
  totalPages : Nat
deriving DecidableEq, Repr

/-- `mockDomains` from `generateMockSearchResults`. -/
def mockDomains : List String :=
  ["example.com", "test-site.org", "sample.net", "demo.co.jp", "mock-site.com",
   "photo-sharing.io", "art-gallery.net", "social-media.com", "blog-platform.org",
   "news-site.jp", "e-commerce.store", "portfolio.dev", "creative-works.art"]

/-- The `threatLevels` array from `generateMockSearchResults`, in source
order. -/
def threatLevelsList : List ThreatLevel :=
  [.SAFE, .LOW, .MEDIUM, .HIGH, .UNKNOWN]

/-- The `statuses` array from `generateMockSearchResults`, in source order. -/
def statusesList : List ResultStatus :=
  [.ACTIVE, .REMOVED, .INVESTIGATING]

/-- `riskFactorsPool` from `generateMockSearchResults`. -/
def riskFactorsPool : List String :=
  ["新規ドメイン（30日以内）", "SSL証明書なし", "著作権侵害の可能性", "検索順位が低い",
   "コンテンツ類似度が低い", "高い悪用リスク", "無許可商用利用", "メタデータ削除",
   "画像加工検出", "ウォーターマーク除去"]

/-- One loop iteration's `Math.random()` draws in `generateMockSearchResults`,
one field per call site (see the module header for the modelling convention).
`shuffledRiskFactors` stands for `riskFactorsPool.sort(() => 0.5 -
Math.random())`: the random-comparator shuffle's output is taken as the
draw. -/
structure MockDraw where
  domainIdx : Nat
  levelIdx : Nat
  statusIdx : Nat
  isOfficialDraw : Bool
  similarityRand : ℚ
  scoreRand : ℚ
  riskFactorCount : Nat
  shuffledRiskFactors : List String
  imageIdRand : Nat
  abuseRand : ℚ
  copyrightRand : ℚ
  commercialDraw : Bool
  repostDraw : Bool
deriving Repr

/-- `getThreatScore` from the search service (`rand` models the
`Math.random()` call of the taken branch). -/
def getThreatScore (threatLevel : ThreatLevel) (rand : ℚ) : ℚ :=
  match threatLevel with
  | .HIGH => 80 + rand * 20
  | .MEDIUM => 50 + rand * 30
  | .LOW => 20 + rand * 30
  | .SAFE => rand * 20
  | .UNKNOWN => rand * 100

/-- The `passesFilter` check inside `generateMockSearchResults`' loop. -/
def passesFilter (filters : FilterConfig) (threatLevel : ThreatLevel)
    (domain : String) (status : ResultStatus) (isOfficial : Bool) : Bool :=
  (filters.threatLevels.isEmpty || filters.threatLevels.contains threatLevel) &&
  (filters.domains.isEmpty || filters.domains.contains domain) &&
  (filters.status.isEmpty || filters.status.contains status) &&
  (match filters.isOfficial with
   | none => true
   | some b => b == isOfficial)

/-- One iteration of the `generateMockSearchResults` loop: draw domain, level
and status, run `passesFilter`, and on success push the result record built
exactly as in the source (`continue` becomes `none`). -/
def mkMockResult (params : SearchParams) (i : Nat) (d : MockDraw) :
    Option SearchResult :=
  let domain := mockDomains.getD (d.domainIdx % mockDomains.length) ""
  let threatLevel := threatLevelsList.getD (d.levelIdx % threatLevelsList.length) .SAFE
  let status := statusesList.getD (d.statusIdx % statusesList.length) .ACTIVE
  let isOfficial := d.isOfficialDraw
  if passesFilter params.filters threatLevel domain status isOfficial then
    some
      { id := "result-" ++ toString (i + (params.page - 1) * params.limit)
        imageId := params.imageId.getD ("img-" ++ toString (d.imageIdRand % 10000))
        foundUrl := "https://" ++ domain ++ "/page" ++ toString (i + 1)
        domain := domain
        title := some ("Sample Content " ++ toString (i + 1))
        description := some ("This is a sample description for search result " ++ toString (i + 1))
        thumbnailUrl := some ("https://picsum.photos/200/200?random=" ++ toString i)
        similarityScore := d.similarityRand * 100
        threatLevel := threatLevel
        threatScore := getThreatScore threatLevel d.scoreRand
        isOfficial := isOfficial
        status := status
        riskFactors := d.shuffledRiskFactors.take (d.riskFactorCount % 4)
        aiAnalysis := some
          { contentAbuse := d.abuseRand * 100
            copyrightRisk := d.copyrightRand * 100
            commercialUse := d.commercialDraw
            unauthorizedRepost := d.repostDraw } }
  else
    none

/-- `generateMockSearchResults` from the search service.  `totalDraw` models
the `Math.floor(Math.random() * 200)` draw for `totalResults`; `draws i` is
iteration `i`'s draw record.  The loop bound
`min(limit, totalResults - (page - 1) * limit)` is computed over `ℤ` as in
JavaScript (it can be negative, giving zero iterations).  `totalPages =
ceil(total / limit)` is the usual `ℕ` ceiling division (`limit ≥ 1` in every
use below). -/
def generateMockSearchResults (params : SearchParams) (totalDraw : Nat)
    (draws : Nat → MockDraw) : SearchResultsResponse :=
  let totalResults := totalDraw % 200 + 50
  let count : Int :=
    min (params.limit : Int)
      ((totalResults : Int) - ((params.page : Int) - 1) * (params.limit : Int))
  { results := (List.range count.toNat).filterMap (fun i => mkMockResult params i (draws i))
    total := totalResults
    page := params.page
    limit := params.limit
    hasMore := params.page * params.limit < totalResults
    totalPages := (totalResults + params.limit - 1) / params.limit }

/-- `searchImages` from the search service, with the `api.get` outcome as an
explicit input.  On success the response is returned; on any error the source
logs to the console and returns `generateMockSearchResults(params)` — a
successful value, not an error. -/
def searchImages (params : SearchParams)
    (apiOutcome : Except String SearchResultsResponse) (totalDraw : Nat)
    (draws : Nat → MockDraw) : Except String SearchResultsResponse :=
  match apiOutcome with
  | .ok response => .ok response
  | .error _ => .ok (generateMockSearchResults params totalDraw draws)

/-- `getSearchResultDetails` from the search service: on API failure it
throws (re-raises a fixed error message). -/
def getSearchResultDetails (_resultId : String)
    (apiOutcome : Except String SearchResult) : Except String SearchResult :=
  match apiOutcome with
  | .ok response => .ok response
  | .error _ => .error "検索結果の詳細取得に失敗しました"

/-! ## Analysis service: `getAnalysisDetail` and
`generateMockAnalysisData` -/

/-- One entry of the `scoreBreakdown` block of `AnalysisReportData`. -/
structure ScoreBreakdownEntry where
  score : ℚ
  weight : ℚ
  factors : List String
deriving DecidableEq, Repr

/-- The `scoreBreakdown` block of `AnalysisReportData`. -/
structure ScoreBreakdown where
  domainTrust : ScoreBreakdownEntry
  contentSimilarity : ScoreBreakdownEntry
  aiAnalysis : ScoreBreakdownEntry
  contextualFactors : ScoreBreakdownEntry
deriving DecidableEq, Repr

/-- The `basicInfo` block of `AnalysisReportData`. -/
structure AnalysisBasicInfo where
  originalImageTitle : String
  detectedImageTitle : String
  similarityScore : ℚ
  threatLevel : ThreatLevel
  threatScore : ℚ
  status : ResultStatus
  isOfficial : Bool
deriving DecidableEq, Repr

/-- The `manualEvaluation` block of `AnalysisReportData` (`evaluatedAt`
timestamp omitted — real time is not modelled). -/
structure ManualEvaluationData where
  evaluatedBy : String
  overrideScore : ℚ
  overrideThreatLevel : ThreatLevel
  notes : String
  confidence : ℚ
deriving DecidableEq, Repr

/-- `AnalysisReportData`, restricted to the blocks the claims mention.  The
`aiAnalysis` sub-reports, `riskFactors`, `recommendations`, `comments` and
`analyst` blocks are constant text plus timestamps in the source and no
claim mentions them. -/
structure AnalysisReportData where
  id : String
  imageId : String
  detectedUrl : String
  domain : String
  basicInfo : AnalysisBasicInfo
  scoreBreakdown : ScoreBreakdown
  manualEvaluation : Option ManualEvaluationData
deriving DecidableEq, Repr

/-- The `Math.random()` draws of `generateMockAnalysisData`, one field per
modelled call site. -/
structure AnalysisDraw where
  imageIdRand : Nat
  domainRand : Nat
  similarityRand : ℚ
  scoreRand : ℚ
  levelIdx : Nat
  statusIdx : Nat
  isOfficialDraw : Bool
  domainTrustRand : ℚ
  contentSimRand : ℚ
  aiRand : ℚ
  contextRand : ℚ
  hasManualEvaluation : Bool
deriving Repr

/-- `generateMockAnalysisData` from the analysis service, restricted to the
modelled blocks.  Note the fixed `scoreBreakdown` weights `0.4 / 0.3 / 0.2 /
0.1` — they are literals in the source, not configuration. -/
def generateMockAnalysisData (analysisId : String) (d : AnalysisDraw) :
    AnalysisReportData :=
  { id := analysisId
    imageId := "img-" ++ toString (d.imageIdRand % 10000)
    detectedUrl := "https://example-" ++ toString (d.domainRand % 1000) ++ ".com/image.jpg"
    domain := "example-" ++ toString (d.domainRand % 1000) ++ ".com"
    basicInfo :=
      { originalImageTitle := "オリジナル画像.jpg"
        detectedImageTitle := "検出された画像.jpg"
        similarityScore := 75 + d.similarityRand * 20
        threatLevel := threatLevelsList.getD (d.levelIdx % 5) .SAFE
        threatScore := d.scoreRand * 100
        status := statusesList.getD (d.statusIdx % 3) .ACTIVE
        isOfficial := d.isOfficialDraw }
    scoreBreakdown :=
      { domainTrust :=
          ⟨d.domainTrustRand * 100, 0.4, ["ドメイン年数", "SSL証明書", "DNS設定", "レピュテーション"]⟩
        contentSimilarity :=
          ⟨d.contentSimRand * 100, 0.3, ["画像ハッシュ比較", "特徴量解析", "メタデータ比較"]⟩
        aiAnalysis :=
          ⟨d.aiRand * 100, 0.2, ["コンテンツ分析", "著作権判定", "悪用検知"]⟩
        contextualFactors :=
          ⟨d.contextRand * 100, 0.1, ["投稿日時", "ソーシャルシグナル", "関連コンテンツ"]⟩ }
    manualEvaluation :=
      if d.hasManualEvaluation then
        some
          { evaluatedBy := "評価者 花子"
            overrideScore := 85
            overrideThreatLevel := .HIGH
            notes := "手動確認の結果、高リスクと判定しました。早急な対応が必要です。"
            confidence := 95 }
      else none }

/-- `getAnalysisDetail` from the analysis service, with the `api.get` outcome
as an explicit input.  On any error the source logs to the console and
returns `generateMockAnalysisData(analysisId)` — a successful value, not an
error. -/
def getAnalysisDetail (analysisId : String)
    (apiOutcome : Except String AnalysisReportData) (d : AnalysisDraw) :
    Except String AnalysisReportData :=
  match apiOutcome with
  | .ok response => .ok response
  | .error _ => .ok (generateMockAnalysisData analysisId d)

/-! ## WhitelistManager data model -/

/-- Whitelist categories from `WhitelistManager.tsx`. -/
inductive WhitelistCategory where
  | official
  | partner
  | trusted
  | other
deriving DecidableEq, Repr

/-- `WhitelistDomain` from `WhitelistManager.tsx`. -/
structure WhitelistDomain where
  id : String
  domain : String
  addedBy : String
  addedAt : String
  description : Option String
  isActive : Bool
  category : WhitelistCategory
  verifiedAt : Option String
  verifiedBy : Option String
deriving DecidableEq, Repr

/-- Modelled from the spec: "the result's domain is present and active in the
WhitelistDomain set".  This is the claim's hypothesis; no function in the
repository computes it as part of scoring. -/
def isActiveWhitelisted (whitelist : List WhitelistDomain) (domain : String) : Bool :=
  whitelist.any (fun w => w.domain == domain && w.isActive)

/-! ## Composite-score weights (analysis service `scoreBreakdown`) -/

/-- The four composite-score weight slots named by the spec. -/
structure CompositeWeights where
  domainTrust : ℚ
  contentSimilarity : ℚ
  aiAnalysis : ℚ
  contextualFactors : ℚ
deriving DecidableEq, Repr

/-- The weight literals of the `scoreBreakdown` block in
`generateMockAnalysisData` — the only composite-score weights anywhere in the
repository.  They are constants, not configuration. -/
def scoreBreakdownWeights : CompositeWeights := ⟨0.4, 0.3, 0.2, 0.1⟩

/-- The sum of the four composite-score weights. -/
def weightsSum (w : CompositeWeights) : ℚ :=
  w.domainTrust + w.contentSimilarity + w.aiAnalysis + w.contextualFactors

/-! ## ImageUploader: drop handling and per-file status state machine

`ImageUploader` keeps `files : ImageFile[]` in React state.  The claims are
about each entry's `status` lifecycle, so an entry is modelled by its `id`
(the source builds time-based ids, assumed distinct — real time is not
modelled, so distinctness appears as `Nodup` hypotheses) together with its
`status` and `error` fields. -/

/-- `ImageFile.status` from `imageService.ts`
(`'pending' | 'uploading' | 'completed' | 'failed'`). -/
inductive FileStatus where
  | pending
  | uploading
  | completed
  | failed
deriving DecidableEq, Repr

/-- One entry of the `files` state of `ImageUploader` (preview URL and
progress number omitted — no claim mentions them). -/
structure ImageFileEntry where
  id : Nat
  status : FileStatus
  error : Option String
deriving DecidableEq, Repr

/-- The `ImageFile` record built in `onDrop` for an accepted file:
`status: validationError ? 'failed' : 'pending'` with the validation message
stored in `error`. -/
def mkImageFile (id : Nat) (file : JsFile) : ImageFileEntry :=
  match validateImageFile file with
  | some validationError => ⟨id, .failed, some validationError⟩
  | none => ⟨id, .pending, none⟩

/-- The `files` React state of `ImageUploader`. -/
abbrev UploaderState : Type := List ImageFileEntry

/-- The `setFiles` updater in `onDrop`: append the new entries, and if the
combined list exceeds `maxFiles`, show the over-limit toast and keep only the
first `maxFiles` entries.  The `Bool` records whether the toast fired. -/
def applyDropWithToast (maxFiles : Nat) (newFiles : List ImageFileEntry)
    (s : UploaderState) : UploaderState × Bool :=
  if maxFiles < (s ++ newFiles).length then ((s ++ newFiles).take maxFiles, true)
  else (s ++ newFiles, false)

/-- The state part of `applyDropWithToast`. -/
def applyDrop (maxFiles : Nat) (newFiles : List ImageFileEntry)
    (s : UploaderState) : UploaderState :=
  (applyDropWithToast maxFiles newFiles s).1

/-- `files.filter(f => f.status === 'pending')` — the selection at the top of
`uploadFiles`. -/
def selectPending (s : UploaderState) : List ImageFileEntry :=
  s.filter (fun f => f.status == .pending)

/-- The synchronous first phase of `uploadFiles`: every selected pending file
is set to `'uploading'` by id (the promise bodies run through their first
`await` before any settlement). -/
def startUploads (s : UploaderState) : UploaderState :=
  s.map (fun f =>
    if ((selectPending s).map (fun f => f.id)).contains f.id then
      { f with status := .uploading }
    else f)

/-- The settlement of one upload promise in `uploadFiles`: the entry with the
settled id becomes `'completed'`, or `'failed'` with the upload error
recorded. -/
def finishUpload (id : Nat) (ok : Bool) (errMsg : String)
    (s : UploaderState) : UploaderState :=
  s.map (fun f =>
    if f.id == id then
      if ok then { f with status := .completed }
      else { f with status := .failed, error := some errMsg }
    else f)

/-- `removeFile` from `ImageUploader` (drops the entry with the given id). -/
def removeEntry (id : Nat) (s : UploaderState) : UploaderState :=
  s.filter (fun f => f.id != id)

/-- `(s.find? (f => f.id == id)).map status` — the status of the entry with a
given id, `none` when no such entry is tracked. -/
def statusOf (id : Nat) (s : UploaderState) : Option FileStatus :=
  (s.find? (fun f => f.id == id)).map (fun f => f.status)

/-- The operations `ImageUploader` performs on its `files` state, as a step
relation.  The `finish` hypothesis records the source's sequencing: a
settlement event is delivered exactly once per started upload, for a file
that the same invocation set to `'uploading'` (the dropzone and the action
buttons are disabled while `isUploading`, so no other operation intervenes
between start and settlement for that id). -/
inductive UploaderStep (maxFiles : Nat) : UploaderState → UploaderState → Prop where
  | drop (newFiles : List (Nat × JsFile)) (s : UploaderState) :
      UploaderStep maxFiles s
        (applyDrop maxFiles (newFiles.map (fun p => mkImageFile p.1 p.2)) s)
  | upload (s : UploaderState) :
      UploaderStep maxFiles s (startUploads s)
  | finish (id : Nat) (ok : Bool) (errMsg : String) (s : UploaderState)
      (h : statusOf id s = some .uploading) :
      UploaderStep maxFiles s (finishUpload id ok errMsg s)
  | remove (id : Nat) (s : UploaderState) :
      UploaderStep maxFiles s (removeEntry id s)
  | clear (s : UploaderState) :
      UploaderStep maxFiles s []

/-! ## `onDrop` rejection messages (`ImageUploader`) -/

/-- The dropzone rejection error codes handled by the `switch` in `onDrop`
(`other` is the `default` branch with the error's own message). -/
inductive DropzoneErrorCode where
  | fileTooLarge
  | fileInvalidType
  | tooManyFiles
  | other (message : String)
deriving DecidableEq, Repr

/-- The toast message `onDrop` shows for one rejection error, from the
`switch` on `error.code`. -/
def dropRejectionMessage (maxFiles : Nat) (fileName : String) :
    DropzoneErrorCode → String
  | .fileTooLarge => "ファイルサイズが大きすぎます: " ++ fileName
  | .fileInvalidType => "対応していないファイル形式です: " ++ fileName
  | .tooManyFiles => "ファイル数が上限を超えています（最大" ++ toString maxFiles ++ "個）"
  | .other message => "ファイルエラー: " ++ message

/-! ## Concrete inputs used by counterexamples and witnesses -/

/-- Modelled from the claim's words (C5): "every configured threshold value
lies in [0,100]" — all thirteen numeric fields of `ThresholdSettings`,
including the three `aiAnalysis` thresholds. -/
def allConfiguredThresholdsInRange (t : ThresholdSettings) : Prop :=
  ∀ s ∈ (checkedScores t ++
      [t.aiAnalysis.contentAbuse, t.aiAnalysis.copyrightInfringement,
       t.aiAnalysis.commercialUseThreshold]), 0 ≤ s ∧ s ≤ 100

/-- Default settings except `aiAnalysis.contentAbuse = 150`, out of range. -/
def c5OutOfRangeSettings : ThresholdSettings :=
  { defaultThresholds with aiAnalysis := ⟨150, 75, 80⟩ }

/-- A filter configuration with nothing filtered (empty lists, open
ranges). -/
def emptyFilters : FilterConfig :=
  { threatLevels := []
    domains := []
    startDate := none
    endDate := none
    similarityMin := 0
    similarityMax := 100
    status := []
    isOfficial := none
    hasRiskFactors := none
    sortBy := "detectedAt"
    sortOrder := "desc" }

/-- Search parameters requesting the first single result, unfiltered. -/
def c1Params : SearchParams :=
  { imageId := some "img-1", query := none, filters := emptyFilters, page := 1, limit := 1 }

/-- A draw whose domain index selects `mockDomains[0] = "example.com"` and
whose level index selects `threatLevels[3] = HIGH`. -/
def c1Draw : MockDraw :=
  { domainIdx := 0
    levelIdx := 3
    statusIdx := 0
    isOfficialDraw := false
    similarityRand := 1/2
    scoreRand := 1/2
    riskFactorCount := 0
    shuffledRiskFactors := riskFactorsPool
    imageIdRand := 1
    abuseRand := 1/2
    copyrightRand := 1/2
    commercialDraw := false
    repostDraw := false }

/-- A draw like `c1Draw` but with a chosen level index. -/
def c1DrawAt (levelIdx : Nat) : MockDraw :=
  { c1Draw with levelIdx := levelIdx }

/-- A whitelist containing `example.com`, active. -/
def c1Whitelist : List WhitelistDomain :=
  [{ id := "domain-1"
     domain := "example.com"
     addedBy := "管理者"
     addedAt := ""
     description := none
     isActive := true
     category := .official
     verifiedAt := none
     verifiedBy := none }]

/-- A concrete draw for `generateMockAnalysisData`. -/
def c2AnalysisDraw : AnalysisDraw :=
  { imageIdRand := 1
    domainRand := 1
    similarityRand := 1/2
    scoreRand := 1/2
    levelIdx := 0
    statusIdx := 0
    isOfficialDraw := false
    domainTrustRand := 1/2
    contentSimRand := 1/2
    aiRand := 1/2
    contextRand := 1/2
    hasManualEvaluation := false }

/-! # Claim theorems -/

/-! ## C3 — upload validation -/

/-- C3: `validateImageFile` accepts (returns `null`) exactly when the file is
at most 10MB and its MIME type is one of jpeg/png/gif/webp; and for every
file it rejects, `uploadImage` throws that validation error before issuing
any request, so no `Image` record can be created for it. -/
theorem validateImageFile_accept_iff_and_upload_rejects :
    (∀ f : JsFile,
      validateImageFile f = none ↔
        (f.size ≤ 10 * 1024 * 1024 ∧
         f.type ∈ ["image/jpeg", "image/png", "image/gif", "image/webp"])) ∧
    (∀ (f : JsFile) (net : NetOutcome) (e : String),
      validateImageFile f = some e → uploadImage f net = ([], Except.error e)) := by
  constructor
  · intro f
    simp only [validateImageFile, UPLOAD_CONFIG]
    split_ifs with h1 h2
    · exact iff_of_false (by simp) (fun h => by omega)
    · exact iff_of_true rfl ⟨by omega, List.elem_iff.mp h2⟩
    · exact iff_of_false (by simp) (fun h => h2 (List.elem_iff.mpr h.2))
  · intro f net e h
    simp only [uploadImage, h]

/-- Witness for C3 at a concrete oversized file. -/
theorem c3_upload_witness :
    uploadImage ⟨"big.png", 10 * 1024 * 1024 + 1, "image/png"⟩ .networkError
      = ([], Except.error fileTooLargeMessage) := by
  have h : validateImageFile ⟨"big.png", 10 * 1024 * 1024 + 1, "image/png"⟩
      = some fileTooLargeMessage := by decide
  exact validateImageFile_accept_iff_and_upload_rejects.2 _ _ _ h

/-! ## C10 — maskAPIKey -/

/-- C10: `maskAPIKey` preserves the key's length; a key of length at most 8
is fully masked; a longer key keeps exactly its first 4 and last 4
characters, with every character in between replaced by `'●'`. -/
theorem maskAPIKey_spec :
    ∀ key : List Char,
      (maskAPIKey key).length = key.length ∧
      (key.length ≤ 8 → ∀ c ∈ maskAPIKey key, c = maskChar) ∧
      (8 < key.length → ∀ i : Nat, i < key.length →
        (maskAPIKey key)[i]? =
          if i < 4 ∨ key.length - 4 ≤ i then key[i]? else some maskChar) := by
  intro key
  refine ⟨?_, ?_, ?_⟩
  · unfold maskAPIKey
    split_ifs with h1 h2
    · simp [h1]
    · simp
    · have h8 : 8 < key.length := by omega
      simp only [List.length_append, List.length_take, List.length_replicate,
        List.length_drop]
      omega
  · intro h8 c hc
    unfold maskAPIKey at hc
    split_ifs at hc with h1
    · simp at hc
    · exact List.eq_of_mem_replicate hc
  · intro h8 i hi
    unfold maskAPIKey
    have hne : key ≠ [] := by
      intro h
      rw [h] at h8
      simp at h8
    rw [if_neg hne, if_neg (by omega), List.append_assoc]
    have htake : (key.take 4).length = 4 := by
      simp only [List.length_take]
      omega
    by_cases hi4 : i < 4
    · rw [if_pos (Or.inl hi4),
        List.getElem?_append_left (by rw [htake]; exact hi4),
        List.getElem?_take_of_lt hi4]
    · by_cases hlast : key.length - 4 ≤ i
      · rw [if_pos (Or.inr hlast),
          List.getElem?_append_right (by rw [htake]; omega),
          List.getElem?_append_right (by simp only [List.length_replicate]; omega)]
        rw [htake, List.length_replicate, List.getElem?_drop]
        congr 1
        omega
      · rw [if_neg (by push_neg; exact ⟨by omega, by omega⟩),
          List.getElem?_append_right (by rw [htake]; omega),
          List.getElem?_append_left (by simp only [List.length_replicate]; rw [htake]; omega)]
        rw [htake, List.getElem?_replicate, if_pos (by omega)]

/-- Witness for C10 at a concrete 12-character key: the middle is masked, the
edges survive. -/
theorem maskAPIKey_spec_witness :
    (maskAPIKey "sk-abcd1234x".data)[5]? = some maskChar ∧
    (maskAPIKey "sk-abcd1234x".data)[0]? = some 's' := by
  have h5 := (maskAPIKey_spec "sk-abcd1234x".data).2.2 (by decide) 5 (by decide)
  have h0 := (maskAPIKey_spec "sk-abcd1234x".data).2.2 (by decide) 0 (by decide)
  rw [if_neg (by decide)] at h5
  rw [if_pos (by decide)] at h0
  exact ⟨h5, by rw [h0]; decide⟩

/-! ## C8 — chunk -/

/-- `chunkGo` on the empty list is empty, whatever the fuel. -/
theorem chunkGo_nil {α : Type} (size fuel : Nat) :
    chunkGo size fuel ([] : List α) = [] := by
  cases fuel <;> rfl

/-- With `1 ≤ size`, fuel at least the list's length is enough: the result
does not depend on the exact fuel value. -/
theorem chunkGo_fuel_irrelevant {α : Type} (size : Nat) (hs : 1 ≤ size) :
    ∀ (fuel fuel' : Nat) (a : List α), a.length ≤ fuel → a.length ≤ fuel' →
      chunkGo size fuel a = chunkGo size fuel' a := by
  intro fuel
  induction fuel with
  | zero =>
    intro fuel' a ha _
    have : a = [] := List.eq_nil_of_length_eq_zero (by omega)
    subst this
    rw [chunkGo_nil, chunkGo_nil]
  | succ n ih =>
    intro fuel' a ha ha'
    cases a with
    | nil => rw [chunkGo_nil, chunkGo_nil]
    | cons x xs =>
      cases fuel' with
      | zero => simp at ha'
      | succ m =>
        simp only [chunkGo]
        congr 1
        apply ih
        · simp only [List.length_drop, List.length_cons] at *
          omega
        · simp only [List.length_drop, List.length_cons] at *
          omega

/-- Concatenating the chunks of `chunkGo` gives back the list. -/
theorem chunkGo_join {α : Type} (size : Nat) (hs : 1 ≤ size) :
    ∀ (fuel : Nat) (a : List α), a.length ≤ fuel →
      (chunkGo size fuel a).flatten = a := by
  intro fuel
  induction fuel with
  | zero =>
    intro a ha
    have : a = [] := List.eq_nil_of_length_eq_zero (by omega)
    subst this
    rfl
  | succ n ih =>
    intro a ha
    cases a with
    | nil => rfl
    | cons x xs =>
      simp only [chunkGo, List.flatten_cons]
      rw [ih ((x :: xs).drop size) (by simp only [List.length_drop, List.length_cons] at *; omega)]
      exact List.take_append_drop size (x :: xs)

/-- Every chunk of `chunkGo` except possibly the last has length exactly
`size`. -/
theorem chunkGo_dropLast_length {α : Type} (size : Nat) (hs : 1 ≤ size) :
    ∀ (fuel : Nat) (a : List α), a.length ≤ fuel →
      ∀ l ∈ (chunkGo size fuel a).dropLast, l.length = size := by
  intro fuel
  induction fuel with
  | zero =>
    intro a ha l hl
    have : a = [] := List.eq_nil_of_length_eq_zero (by omega)
    subst this
    rw [chunkGo_nil] at hl
    simp at hl
  | succ n ih =>
    intro a ha l hl
    cases a with
    | nil =>
      rw [chunkGo_nil] at hl
      simp at hl
    | cons x xs =>
      simp only [chunkGo] at hl
      by_cases hrest : chunkGo size n ((x :: xs).drop size) = []
      · rw [hrest] at hl
        simp at hl
      · rw [List.dropLast_cons_of_ne_nil hrest] at hl
        rcases List.mem_cons.mp hl with h | h
        · -- the head chunk: the rest is nonempty, so `size < (x :: xs).length`
          have hdrop : (x :: xs).drop size ≠ [] := by
            intro hd
            rw [hd, chunkGo_nil] at hrest
            exact hrest rfl
          have hlt : size < (x :: xs).length := by
            by_contra hge
            exact hdrop (List.drop_eq_nil_of_le (by omega))
          rw [h]
          simp only [List.length_take]
          omega
        · exact ih ((x :: xs).drop size)
            (by simp only [List.length_drop, List.length_cons] at *; omega) l h

/-- C8: for every list and chunk size ≥ 1, `chunk` terminates (it is a total
function), concatenating its chunks in order returns exactly the input, and
every chunk except possibly the last has length exactly `size`. -/
theorem chunk_spec {α : Type} (a : List α) (size : Nat) (hs : 1 ≤ size) :
    (chunk a size).flatten = a ∧
    ∀ l ∈ (chunk a size).dropLast, l.length = size := by
  unfold chunk
  rw [if_neg (by omega)]
  exact ⟨chunkGo_join size hs a.length a le_rfl,
    chunkGo_dropLast_length size hs a.length a le_rfl⟩

/-- Witness for C8 on a concrete 5-element list with chunk size 2. -/
theorem chunk_spec_witness :
    (chunk [1, 2, 3, 4, 5] 2).flatten = [1, 2, 3, 4, 5] ∧
    ∀ l ∈ (chunk [1, 2, 3, 4, 5] 2).dropLast, l.length = 2 :=
  chunk_spec [1, 2, 3, 4, 5] 2 (by decide)

/-! ## C5 — validateThresholds acceptance -/

/-- C5 counterexample: a configuration whose `aiAnalysis.contentAbuse`
threshold is 150 (outside [0,100]) still passes `validateThresholds` with no
errors — the function range-checks only the ten `checkedScores`, not every
configured threshold value. -/
theorem c5_counterexample :
    validateThresholds c5OutOfRangeSettings = [] ∧
    ¬ allConfiguredThresholdsInRange c5OutOfRangeSettings := by
  constructor
  · decide
  · intro h
    have h150 := h 150 (by decide)
    exact absurd h150.2 (by decide)

/-- C5 amended: `validateThresholds` returns no errors iff the threat-score
boundaries are strictly increasing and the ten checked values (threat-score
boundaries, similarity, confidence and domain-trust thresholds — not the
`aiAnalysis` thresholds) lie in [0,100]. -/
theorem validateThresholds_empty_iff :
    ∀ t : ThresholdSettings,
      validateThresholds t = [] ↔
        (t.threatScore.safe < t.threatScore.low ∧
         t.threatScore.low < t.threatScore.medium ∧
         t.threatScore.medium < t.threatScore.high ∧
         ∀ s ∈ checkedScores t, 0 ≤ s ∧ s ≤ 100) := by
  intro t
  unfold validateThresholds
  simp only [List.append_eq_nil, ite_eq_right_iff, List.cons_ne_nil, imp_false,
    not_le, List.any_eq_true, Bool.or_eq_true, decide_eq_true_eq, not_exists,
    not_or, not_lt, and_assoc]
  constructor
  · rintro ⟨h1, h2, h3, h4⟩
    refine ⟨h1, h2, h3, ?_⟩
    intro s hs
    constructor
    · rcases le_or_lt 0 s with h0 | h0
      · exact h0
      · exact absurd ⟨hs, Or.inl h0⟩ (h4 s)
    · rcases le_or_lt s 100 with hle | hgt
      · exact hle
      · exact absurd ⟨hs, Or.inr hgt⟩ (h4 s)
  · rintro ⟨h1, h2, h3, h4⟩
    refine ⟨h1, h2, h3, ?_⟩
    rintro x ⟨hmem, hbad⟩
    rcases hbad with hb | hb
    · exact absurd (h4 x hmem).1 (not_le.mpr hb)
    · exact absurd (h4 x hmem).2 (not_le.mpr hb)

/-- Witness for the amended C5 statement: the default thresholds satisfy the
right-hand side, hence validate with no errors. -/
theorem validateThresholds_empty_iff_witness :
    validateThresholds defaultThresholds = [] :=
  (validateThresholds_empty_iff defaultThresholds).mpr
    ⟨by decide, by decide, by decide, by decide⟩

/-! ## C4 — composite-score weight validation -/

/-- C4 counterexample: a weight configuration summing to 2 (≠ 1) is not
rejected by anything: the repository's only configuration validation,
`validateThresholds`, accepts the (default) configuration and takes no
weights at all. -/
theorem c4_counterexample :
    weightsSum ⟨1/2, 1/2, 1/2, 1/2⟩ ≠ 1 ∧
    validateThresholds defaultThresholds = [] := by
  constructor
  · unfold weightsSum
    norm_num
  · decide

/-- C4 amended: the composite-score weights are the fixed literals
0.4/0.3/0.2/0.1 of `generateMockAnalysisData` (which do sum to 1), and
`validateThresholds` can only ever report the three ordering errors or the
range error — no weight-related validation exists. -/
theorem c4_amended :
    weightsSum scoreBreakdownWeights = 1 ∧
    (∀ (analysisId : String) (d : AnalysisDraw),
      (generateMockAnalysisData analysisId d).scoreBreakdown.domainTrust.weight
          = scoreBreakdownWeights.domainTrust ∧
      (generateMockAnalysisData analysisId d).scoreBreakdown.contentSimilarity.weight
          = scoreBreakdownWeights.contentSimilarity ∧
      (generateMockAnalysisData analysisId d).scoreBreakdown.aiAnalysis.weight
          = scoreBreakdownWeights.aiAnalysis ∧
      (generateMockAnalysisData analysisId d).scoreBreakdown.contextualFactors.weight
          = scoreBreakdownWeights.contextualFactors) ∧
    (∀ (t : ThresholdSettings) (e : String), e ∈ validateThresholds t →
      e ∈ [orderErrSafeLow, orderErrLowMedium, orderErrMediumHigh, rangeErr]) := by
  refine ⟨by unfold weightsSum scoreBreakdownWeights; norm_num, ?_, ?_⟩
  · intro analysisId d
    exact ⟨rfl, rfl, rfl, rfl⟩
  · intro t e h
    unfold validateThresholds at h
    rcases List.mem_append.mp h with h1 | h4
    · rcases List.mem_append.mp h1 with h2 | h3
      · rcases List.mem_append.mp h2 with h5 | h6
        · split at h5 <;> simp_all
        · split at h6 <;> simp_all
      · split at h3 <;> simp_all
    · split at h4 <;> simp_all

/-- Witness for the amended C4 statement: a mis-ordered configuration yields
the safe/low ordering error, one of the four fixed messages. -/
theorem c4_amended_witness :
    orderErrSafeLow ∈ [orderErrSafeLow, orderErrLowMedium, orderErrMediumHigh, rangeErr] :=
  c4_amended.2.2 { defaultThresholds with threatScore := ⟨50, 40, 70, 85⟩ }
    orderErrSafeLow (by decide)

/-! ## C1 — whitelisted domains and threat level -/

/-- C1 counterexample: with `example.com` present and active in the
whitelist, the search-result generator still produces a result for
`example.com` with threat level `HIGH` — nothing consults the whitelist
during result generation. -/
theorem c1_counterexample :
    ((generateMockSearchResults c1Params 0 (fun _ => c1Draw)).results.map
      (fun r => (r.domain, r.threatLevel))) = [("example.com", ThreatLevel.HIGH)] ∧
    isActiveWhitelisted c1Whitelist "example.com" = true ∧
    ThreatLevel.HIGH ≠ ThreatLevel.SAFE :=
  ⟨by decide, by decide, by decide⟩

/-- C1 amended: the threat level of a generated result is determined solely
by the per-iteration random draw (`threatLevels[floor(rand * 5)]`); an
active-whitelisted domain can be assigned every threat level, including
`HIGH` — no rule forces `SAFE` for whitelisted domains. -/
theorem c1_amended_level_independent :
    ∀ level : ThreatLevel, ∃ levelIdx : Nat,
      ((generateMockSearchResults c1Params 0 (fun _ => c1DrawAt levelIdx)).results.map
        (fun r => (r.domain, r.threatLevel))) = [("example.com", level)] ∧
      isActiveWhitelisted c1Whitelist "example.com" = true := by
  intro level
  cases level with
  | SAFE => exact ⟨0, by decide, by decide⟩
  | LOW => exact ⟨1, by decide, by decide⟩
  | MEDIUM => exact ⟨2, by decide, by decide⟩
  | HIGH => exact ⟨3, by decide, by decide⟩
  | UNKNOWN => exact ⟨4, by decide, by decide⟩

/-! ## C2 — provider errors and fabricated fallbacks -/

/-- C2 counterexample: when the underlying API call fails, `searchImages` and
`getAnalysisDetail` both return a successful response containing locally
fabricated mock data; the failure is neither propagated nor recorded. -/
theorem c2_counterexample :
    (searchImages c1Params (.error "Network Error") 0 (fun _ => c1Draw)).isOk = true ∧
    searchImages c1Params (.error "Network Error") 0 (fun _ => c1Draw) =
      .ok (generateMockSearchResults c1Params 0 (fun _ => c1Draw)) ∧
    (getAnalysisDetail "analysis-1" (.error "Network Error") c2AnalysisDraw).isOk = true ∧
    getAnalysisDetail "analysis-1" (.error "Network Error") c2AnalysisDraw =
      .ok (generateMockAnalysisData "analysis-1" c2AnalysisDraw) :=
  ⟨rfl, rfl, rfl, rfl⟩

/-- C2 amended: `searchImages` and `getAnalysisDetail` never surface an API
failure — every call returns `.ok`, substituting the mock fallback when the
API call fails (the source only logs the error) — whereas
`getSearchResultDetails` propagates failures as a thrown error. -/
theorem c2_amended_fallback_never_fails :
    (∀ (params : SearchParams) (apiOutcome : Except String SearchResultsResponse)
        (totalDraw : Nat) (draws : Nat → MockDraw),
      (searchImages params apiOutcome totalDraw draws).isOk = true) ∧
    (∀ (params : SearchParams) (e : String) (totalDraw : Nat) (draws : Nat → MockDraw),
      searchImages params (.error e) totalDraw draws =
        .ok (generateMockSearchResults params totalDraw draws)) ∧
    (∀ (analysisId : String) (apiOutcome : Except String AnalysisReportData)
        (d : AnalysisDraw),
      (getAnalysisDetail analysisId apiOutcome d).isOk = true) ∧
    (∀ resultId e : String,
      getSearchResultDetails resultId (.error e) =
        .error "検索結果の詳細取得に失敗しました") := by
  refine ⟨?_, ?_, ?_, ?_⟩
  · intro params apiOutcome totalDraw draws
    cases apiOutcome <;> rfl
  · intro params e totalDraw draws
    rfl
  · intro analysisId apiOutcome d
    cases apiOutcome <;> rfl
  · intro resultId e
    rfl

/-! ## Uploader state-machine helper lemmas -/

/-- `find?` over a map by an id-preserving function. -/
theorem find?_map_preserving (g : ImageFileEntry → ImageFileEntry)
    (hid : ∀ f, (g f).id = f.id) (l : List ImageFileEntry) (id : Nat) :
    (l.map g).find? (fun f => f.id == id) =
      (l.find? (fun f => f.id == id)).map g := by
  induction l with
  | nil => rfl
  | cons a t ih =>
    simp only [List.map_cons, List.find?_cons, hid]
    cases h : (a.id == id)
    · simpa using ih
    · rfl

/-- A successful `find?` on a prefix also succeeds, with the same witness, on
the longer list. -/
theorem find?_append_left_some {l₁ l₂ : List ImageFileEntry}
    {p : ImageFileEntry → Bool} {x : ImageFileEntry}
    (h : l₁.find? p = some x) : (l₁ ++ l₂).find? p = some x := by
  induction l₁ with
  | nil => simp at h
  | cons a t ih =>
    rw [List.find?_cons] at h
    rw [List.cons_append, List.find?_cons]
    cases hp : p a
    · rw [hp] at h
      simp only [cond_false] at h ⊢
      exact ih h
    · rw [hp] at h
      simpa using h

/-- A successful `find?` on a `take`-prefix also succeeds, with the same
witness, on the whole list. -/
theorem find?_take_some {l : List ImageFileEntry} {n : Nat}
    {p : ImageFileEntry → Bool} {x : ImageFileEntry}
    (h : (l.take n).find? p = some x) : l.find? p = some x := by
  induction l generalizing n with
  | nil => simp at h
  | cons a t ih =>
    cases n with
    | zero => simp at h
    | succ m =>
      rw [List.take_succ_cons, List.find?_cons] at h
      rw [List.find?_cons]
      cases hp : p a
      · rw [hp] at h
        simp only [cond_false] at h ⊢
        exact ih h
      · rw [hp] at h
        simpa using h

/-- Filtering by a predicate that holds on every `find?`-match leaves the
`find?` result unchanged. -/
theorem find?_filter_stable {l : List ImageFileEntry}
    {q p : ImageFileEntry → Bool}
    (hq : ∀ f, p f = true → q f = true) :
    (l.filter q).find? p = l.find? p := by
  induction l with
  | nil => rfl
  | cons a t ih =>
    rw [List.filter_cons]
    cases hpa : p a
    · split
      · simp only [List.find?_cons, hpa, cond_false, ih]
      · simp only [List.find?_cons, hpa, cond_false, ih]
    · rw [if_pos (hq a hpa)]
      simp only [List.find?_cons, hpa, cond_true]

/-- The mapped entry-updater of `finishUpload` preserves ids. -/
theorem finishUpload_id_preserving (fid : Nat) (ok : Bool) (errMsg : String) :
    ∀ f : ImageFileEntry,
      ((fun f => if f.id == fid then
          (if ok then { f with status := FileStatus.completed }
           else { f with status := FileStatus.failed, error := some errMsg })
        else f) f).id = f.id := by
  intro f
  dsimp only
  split
  · split <;> rfl
  · rfl

/-- Terminal statuses are preserved by every uploader operation: if the entry
tracked under `id` is `completed` or `failed`, then after any single step it
either still has exactly that status or is no longer tracked (removed /
cleared / cut by the max-files cap).  The `Nodup` hypothesis models the
source's time-based unique ids. -/
theorem step_keeps_terminal {maxF : Nat} {s s' : UploaderState} {id : Nat}
    {st : FileStatus}
    (hnd : (s.map (fun f => f.id)).Nodup)
    (hstep : UploaderStep maxF s s')
    (hst : statusOf id s = some st)
    (hterm : st = .completed ∨ st = .failed) :
    statusOf id s' = some st ∨ statusOf id s' = none := by
  obtain ⟨entry, hfind, hstatus⟩ :
      ∃ e, s.find? (fun f => f.id == id) = some e ∧ e.status = st := by
    unfold statusOf at hst
    cases hf : s.find? (fun f => f.id == id) with
    | none =>
      rw [hf] at hst
      simp at hst
    | some e =>
      rw [hf] at hst
      exact ⟨e, rfl, by simpa using hst⟩
  have hpid : (entry.id == id) = true := by
    have h := List.find?_some hfind
    simpa using h
  have hmem : entry ∈ s := List.mem_of_find?_eq_some hfind
  cases hstep with
  | drop newFiles =>
    unfold applyDrop applyDropWithToast
    split_ifs with hc
    · dsimp only
      cases hf' : ((s ++ newFiles.map (fun p => mkImageFile p.1 p.2)).take maxF).find?
          (fun f => f.id == id) with
      | none =>
        right
        unfold statusOf
        rw [hf']
        rfl
      | some e' =>
        left
        have h1 := find?_take_some hf'
        have h2 : (s ++ newFiles.map (fun p => mkImageFile p.1 p.2)).find?
            (fun f => f.id == id) = some entry := find?_append_left_some hfind
        rw [h1] at h2
        have he : e' = entry := Option.some.inj h2
        unfold statusOf
        rw [hf', he]
        simp [hstatus]
    · dsimp only
      left
      unfold statusOf
      rw [find?_append_left_some hfind]
      simp [hstatus]
  | upload =>
    left
    unfold statusOf startUploads
    rw [find?_map_preserving _ (by intro f; split <;> rfl) s id, hfind]
    have hnotpend : ¬ ∃ a ∈ selectPending s, a.id = entry.id := by
      rintro ⟨pf, hpfmem, hpfid⟩
      have hpfs : pf ∈ s := List.mem_of_mem_filter hpfmem
      have hpfpending : pf.status = .pending := by
        have h := List.of_mem_filter hpfmem
        simpa using h
      have hpe : pf = entry :=
        List.inj_on_of_nodup_map hnd hpfs hmem hpfid
      rw [hpe] at hpfpending
      rw [hpfpending] at hstatus
      rcases hterm with h | h <;> simp [← hstatus] at h
    simp [hnotpend, hstatus]
  | finish fid ok errMsg _ hguard =>
    left
    unfold statusOf finishUpload
    rw [find?_map_preserving _ (finishUpload_id_preserving fid ok errMsg) s id, hfind]
    have hne : ¬ entry.id = fid := by
      intro hidfid
      have hidid : entry.id = id := by simpa using hpid
      have hsame : statusOf fid s = some st := by
        unfold statusOf
        have hfi : fid = id := by rw [← hidfid, hidid]
        rw [hfi, hfind]
        simp [hstatus]
      rw [hguard] at hsame
      have huplo : FileStatus.uploading = st := Option.some.inj hsame
      rcases hterm with h | h <;> rw [← huplo] at h <;> exact absurd h (by simp)
    simp [hne, hstatus]
  | remove rid =>
    unfold statusOf removeEntry
    by_cases hr : rid = id
    · right
      subst hr
      rw [List.find?_eq_none.mpr ?_]
      · rfl
      · intro x hx
        have hxr := List.of_mem_filter hx
        simp only [bne_iff_ne, ne_eq] at hxr
        simp only [beq_iff_eq]
        exact fun hxe => hxr hxe
    · left
      rw [find?_filter_stable ?_, hfind]
      · simp [hstatus]
      · intro f hf
        have hfid : f.id = id := by simpa using hf
        simp only [bne_iff_ne, ne_eq, hfid]
        exact fun he => hr he.symm
  | clear =>
    right
    rfl

/-- Two string concatenations with fixed prefixes differing within their
first five characters are distinct, whatever the suffixes. -/
theorem append_ne_of_prefix_ne (p q a b : String) (hp : 5 ≤ p.data.length)
    (hq : 5 ≤ q.data.length) (hne : p.data.take 5 ≠ q.data.take 5) :
    p ++ a ≠ q ++ b := by
  intro h
  apply hne
  have hd : p.data ++ a.data = q.data ++ b.data := congrArg String.data h
  calc p.data.take 5 = (p.data ++ a.data).take 5 :=
        (List.take_append_of_le_length hp).symm
    _ = (q.data ++ b.data).take 5 := by rw [hd]
    _ = q.data.take 5 := List.take_append_of_le_length hq

/-! ## C7 — terminal statuses are final -/

/-- C7: once an `ImageUploader` entry's status is `completed` or `failed`, no
operation of the component (`onDrop`, `uploadFiles` start or settlement,
`removeFile`, `clearAllFiles`) transitions it to any other status: after any
step the entry either keeps exactly that status or is no longer tracked. -/
theorem uploader_terminal_states_final :
    ∀ (maxF : Nat) (s s' : UploaderState) (id : Nat) (st : FileStatus),
      (s.map (fun f => f.id)).Nodup →
      UploaderStep maxF s s' →
      statusOf id s = some st →
      (st = .completed ∨ st = .failed) →
      statusOf id s' = some st ∨ statusOf id s' = none :=
  fun _ _ _ _ _ hnd hstep hst hterm => step_keeps_terminal hnd hstep hst hterm

/-- Witness for C7: a completed entry survives a `uploadFiles` start phase
untouched. -/
theorem uploader_terminal_states_final_witness :
    statusOf 1 (startUploads [⟨1, .completed, none⟩, ⟨2, .pending, none⟩])
        = some .completed ∨
      statusOf 1 (startUploads [⟨1, .completed, none⟩, ⟨2, .pending, none⟩])
        = none :=
  uploader_terminal_states_final 10 [⟨1, .completed, none⟩, ⟨2, .pending, none⟩]
    (startUploads [⟨1, .completed, none⟩, ⟨2, .pending, none⟩]) 1 .completed
    (by decide) (UploaderStep.upload _) (by decide) (Or.inl rfl)

/-! ## C9 — validation-failed files are never uploaded -/

/-- C9: a file for which `validateImageFile` returns an error is tracked as
`failed` from drop time on; a `failed` entry stays `failed` (or disappears)
under every operation; and `uploadFiles` never selects it, since its pending
selection contains only `pending` entries — so `uploadImage` is never invoked
for a validation-failed file. -/
theorem validation_failed_never_uploaded :
    (∀ (id : Nat) (f : JsFile), (validateImageFile f).isSome →
      (mkImageFile id f).status = .failed) ∧
    (∀ (maxF : Nat) (s s' : UploaderState) (id : Nat),
      (s.map (fun f => f.id)).Nodup →
      UploaderStep maxF s s' →
      statusOf id s = some .failed →
      statusOf id s' = some .failed ∨ statusOf id s' = none) ∧
    (∀ (s : UploaderState) (id : Nat),
      (s.map (fun f => f.id)).Nodup →
      statusOf id s = some .failed →
      id ∉ (selectPending s).map (fun f => f.id)) := by
  refine ⟨?_, ?_, ?_⟩
  · intro id f hsome
    unfold mkImageFile
    cases hv : validateImageFile f with
    | none =>
      rw [hv] at hsome
      simp at hsome
    | some e => rfl
  · intro maxF s s' id hnd hstep hst
    exact step_keeps_terminal hnd hstep hst (Or.inr rfl)
  · intro s id hnd hst hmem
    obtain ⟨entry, hfind, hstatus⟩ :
        ∃ e, s.find? (fun f => f.id == id) = some e ∧ e.status = .failed := by
      unfold statusOf at hst
      cases hf : s.find? (fun f => f.id == id) with
      | none =>
        rw [hf] at hst
        simp at hst
      | some e =>
        rw [hf] at hst
        exact ⟨e, rfl, by simpa using hst⟩
    have hentrymem : entry ∈ s := List.mem_of_find?_eq_some hfind
    have hentryid : entry.id = id := by
      have h := List.find?_some hfind
      simpa using h
    obtain ⟨pf, hpfmem, hpfid⟩ := List.mem_map.mp hmem
    have hpfs : pf ∈ s := List.mem_of_mem_filter hpfmem
    have hpfpending : pf.status = .pending := by
      have h := List.of_mem_filter hpfmem
      simpa using h
    have hpe : pf = entry :=
      List.inj_on_of_nodup_map hnd hpfs hentrymem (by rw [hpfid, hentryid])
    rw [hpe, hstatus] at hpfpending
    exact absurd hpfpending (by simp)

/-- Witness for C9: a non-image file is marked failed at drop time, and a
failed entry is not selected by `uploadFiles`. -/
theorem validation_failed_never_uploaded_witness :
    (mkImageFile 7 ⟨"x.exe", 100, "application/octet-stream"⟩).status = .failed ∧
    7 ∉ (selectPending [⟨7, FileStatus.failed, some "e"⟩, ⟨8, .pending, none⟩]).map
        (fun f => f.id) :=
  ⟨validation_failed_never_uploaded.1 7 _ (by decide),
   validation_failed_never_uploaded.2.2 [⟨7, .failed, some "e"⟩, ⟨8, .pending, none⟩]
     7 (by decide) (by decide)⟩

/-! ## C6 — specific rejection reasons -/

/-- C6: each rejection reason handled by `onDrop` (too-large, invalid-type,
too-many-files, and the generic default) produces a distinct, distinguishable
message; and the max-file cap in the `setFiles` updater never drops excess
files silently — the over-limit toast fires exactly when the combined list
exceeds `maxFiles`, and otherwise every file is kept. -/
theorem dropRejection_messages_specific (maxF : Nat) (fileName message : String) :
    dropRejectionMessage maxF fileName .fileTooLarge ≠
      dropRejectionMessage maxF fileName .fileInvalidType ∧
    dropRejectionMessage maxF fileName .fileTooLarge ≠
      dropRejectionMessage maxF fileName .tooManyFiles ∧
    dropRejectionMessage maxF fileName .fileTooLarge ≠
      dropRejectionMessage maxF fileName (.other message) ∧
    dropRejectionMessage maxF fileName .fileInvalidType ≠
      dropRejectionMessage maxF fileName .tooManyFiles ∧
    dropRejectionMessage maxF fileName .fileInvalidType ≠
      dropRejectionMessage maxF fileName (.other message) ∧
    dropRejectionMessage maxF fileName .tooManyFiles ≠
      dropRejectionMessage maxF fileName (.other message) ∧
    (∀ (s newFiles : UploaderState),
      ((applyDropWithToast maxF newFiles s).2 = true ↔
        maxF < (s ++ newFiles).length) ∧
      ((applyDropWithToast maxF newFiles s).2 = false →
        (applyDropWithToast maxF newFiles s).1 = s ++ newFiles)) := by
  have hTL : dropRejectionMessage maxF fileName .fileTooLarge =
      "ファイルサイズが大きすぎます: " ++ fileName := rfl
  have hIT : dropRejectionMessage maxF fileName .fileInvalidType =
      "対応していないファイル形式です: " ++ fileName := rfl
  have hTM : dropRejectionMessage maxF fileName .tooManyFiles =
      "ファイル数が上限を超えています（最大" ++ (toString maxF ++ "個）") := by
    show "ファイル数が上限を超えています（最大" ++ toString maxF ++ "個）" =
      "ファイル数が上限を超えています（最大" ++ (toString maxF ++ "個）")
    rw [String.append_assoc]
  have hOT : dropRejectionMessage maxF fileName (.other message) =
      "ファイルエラー: " ++ message := rfl
  refine ⟨?_, ?_, ?_, ?_, ?_, ?_, ?_⟩
  · rw [hTL, hIT]
    exact append_ne_of_prefix_ne _ _ _ _ (by decide) (by decide) (by decide)
  · rw [hTL, hTM]
    exact append_ne_of_prefix_ne _ _ _ _ (by decide) (by decide) (by decide)
  · rw [hTL, hOT]
    exact append_ne_of_prefix_ne _ _ _ _ (by decide) (by decide) (by decide)
  · rw [hIT, hTM]
    exact append_ne_of_prefix_ne _ _ _ _ (by decide) (by decide) (by decide)
  · rw [hIT, hOT]
    exact append_ne_of_prefix_ne _ _ _ _ (by decide) (by decide) (by decide)
  · rw [hTM, hOT]
    exact append_ne_of_prefix_ne _ _ _ _ (by decide) (by decide) (by decide)
  · intro s newFiles
    unfold applyDropWithToast
    split_ifs with hc
    · exact ⟨by simpa using hc, by simp⟩
    · exact ⟨by simpa using hc, fun _ => rfl⟩

/-- Witness for C6: concrete distinct messages, and the cap toast fires when
two files meet a one-file limit. -/
theorem dropRejection_messages_specific_witness :
    dropRejectionMessage 10 "a.png" .tooManyFiles ≠
      dropRejectionMessage 10 "a.png" (.other "x") ∧
    (applyDropWithToast 1 [⟨2, .pending, none⟩] [⟨1, .pending, none⟩]).2 = true :=
  ⟨(dropRejection_messages_specific 10 "a.png" "x").2.2.2.2.2.1,
   ((dropRejection_messages_specific 1 "a.png" "x").2.2.2.2.2.2
      [⟨1, .pending, none⟩] [⟨2, .pending, none⟩]).1.mpr (by decide)⟩
